import Mathlib

/-!
Verification of `gromacs/tools.py` (GromacsWrapper fork).

The module builds wrapper classes for Gromacs command-line tools:
a registry of dynamically generated classes, a `GromacsCommandMultiIndex`
class that merges several index files into one temporary `.ndx` file
before delegating to the base command, and best-effort cleanup of that
temporary file on destruction.

The embedding below translates the module's operations into Lean:
Python keyword-argument dicts become functions `String → PyVal`,
the filesystem becomes an explicit state record, external collaborators
(`Make_ndx` execution, `tempfile.mkstemp`, `utilities.unlink_gmx`) become
oracles or contract-level models, and the module-load registry
construction becomes a fold over the configured tool list.
-/

namespace GromacsTools

/-- Python values that can appear as the value of the keyword arguments the
module inspects: `None`, a filename string, a sequence of filename strings,
or a value (such as an integer) that supports neither of these shapes. -/
inductive PyVal where
  | none : PyVal
  | str : String → PyVal
  | list : List String → PyVal
  | int : Int → PyVal
deriving DecidableEq

/-- Kind of an OSError raised by a filesystem operation. -/
inductive OSErrKind where
  | noSuchFile : OSErrKind
  | permissionDenied : OSErrKind
deriving DecidableEq

/-- Python exceptions relevant to the module: `TypeError` (e.g. `len()` of an
integer), `AttributeError` (missing instance attribute), `OSError` from file
deletion, and a failure raised by the external `Make_ndx` command. -/
inductive PyErr where
  | typeError : PyErr
  | attributeError : PyErr
  | osError : OSErrKind → PyErr
  | gmxError : String → PyErr
deriving DecidableEq

deriving instance DecidableEq for Except

/-- A keyword-argument mapping (`**kwargs`).  Python's `kwargs.get(k)` returns
`None` for a missing key, so the mapping is total with default `PyVal.none`. -/
def Kwargs := String → PyVal

/-- `kwargs.get(k)`. -/
def Kwargs.get (kw : Kwargs) (k : String) : PyVal := kw k

/-- `kwargs[k] = v`. -/
def Kwargs.set (kw : Kwargs) (k : String) (v : PyVal) : Kwargs :=
  fun q => if q = k then v else kw q

/-- Python `len()` on the embedded values: strings and lists have a length,
`None` and integers raise `TypeError`. -/
def pyLen : PyVal → Except PyErr Nat
  | PyVal.none => Except.error PyErr.typeError
  | PyVal.str s => Except.ok s.length
  | PyVal.list l => Except.ok l.length
  | PyVal.int _ => Except.error PyErr.typeError

/-- The guard `ndx is None or type(ndx) is str` of `_fake_multi_ndx`. -/
def isNoneOrStr : PyVal → Bool
  | PyVal.none => true
  | PyVal.str _ => true
  | _ => false

/-- Filesystem state: the existing paths, and the paths whose deletion fails
with a permission `OSError` (modelling deletion failures other than a missing
file). -/
structure FS where
  files : List String
  locked : List String
deriving DecidableEq

/-- Modelled from the contract of `tempfile.mkstemp(suffix, prefix)`: the
returned path starts with the given leading part, ends with the given trailing
part, and names a file that did not previously exist.  The fresh middle part
is modelled as a run of characters longer than every existing path. -/
def mkstempName (pre suf : String) (existing : List String) : String :=
  pre ++ String.mk (List.replicate ((existing.map String.length).foldr max 0 + 1) 'a') ++ suf

/-- One invocation of the external `Make_ndx` helper, as issued by
`_fake_multi_ndx`: `f` is the structure-file argument (`kwargs.get('s')`),
`n` the original index-file argument, `o` the output file. -/
structure MakeNdxCall where
  f : PyVal
  n : PyVal
  o : String
deriving DecidableEq

/-- The instance attributes of `GromacsCommandMultiIndex` that
`_fake_multi_ndx` assigns: `self.multi_ndx` and `self.orig_ndx`
(`Option.none` models the attribute not being set). -/
structure MultiIndexState where
  multi_ndx : Option String
  orig_ndx : Option PyVal
deriving DecidableEq

/-- A freshly constructed instance: neither attribute set. -/
def emptyState : MultiIndexState := ⟨Option.none, Option.none⟩

/-- Result of running `_fake_multi_ndx`: the returned kwargs (or the raised
exception), the instance attributes, the filesystem, and the list of
`Make_ndx` invocations issued. -/
structure FakeOut where
  result : Except PyErr Kwargs
  st : MultiIndexState
  fs : FS
  calls : List MakeNdxCall

/-- `GromacsCommandMultiIndex._fake_multi_ndx`.  `makeNdx` is the oracle for
the external `Make_ndx` command (its success or failure).  Faithful to the
source: `self.multi_ndx` is assigned before the `Make_ndx` call and
`self.orig_ndx` after it; `tempfile.mkstemp` creates the temporary file. -/
def fake_multi_ndx (makeNdx : MakeNdxCall → Except PyErr Unit)
    (self : MultiIndexState) (fs : FS) (kwargs : Kwargs) : FakeOut :=
  let ndx := kwargs.get "n"
  if isNoneOrStr ndx then ⟨Except.ok kwargs, self, fs, []⟩
  else
    match pyLen ndx with
    | Except.error e => ⟨Except.error e, self, fs, []⟩
    | Except.ok count =>
      if count > 1 then
        let tmp := mkstempName "multi_" ".ndx" fs.files
        let fs1 : FS := ⟨tmp :: fs.files, fs.locked⟩
        let self1 : MultiIndexState := ⟨some tmp, self.orig_ndx⟩
        let call : MakeNdxCall := ⟨kwargs.get "s", ndx, tmp⟩
        match makeNdx call with
        | Except.error e => ⟨Except.error e, self1, fs1, [call]⟩
        | Except.ok _ =>
          ⟨Except.ok (kwargs.set "n" (PyVal.str tmp)), ⟨some tmp, some ndx⟩, fs1, [call]⟩
      else ⟨Except.ok kwargs, self, fs, []⟩

/-- Result of the decorated `__init__` or `run`: outcome, instance attributes,
filesystem, `Make_ndx` invocations, and the kwargs actually delegated to the
base `GromacsCommand` method (empty when an exception propagated first). -/
structure RunOut where
  result : Except PyErr Unit
  st : MultiIndexState
  fs : FS
  calls : List MakeNdxCall
  baseKwargs : List Kwargs

/-- `GromacsCommandMultiIndex.run` (and the body shared with `__init__`):
run `_fake_multi_ndx`, then delegate to the base class with the returned
kwargs; an exception from `_fake_multi_ndx` propagates unmodified and the
base class is never reached. -/
def runMulti (makeNdx : MakeNdxCall → Except PyErr Unit)
    (self : MultiIndexState) (fs : FS) (kwargs : Kwargs) : RunOut :=
  let out := fake_multi_ndx makeNdx self fs kwargs
  match out.result with
  | Except.error e => ⟨Except.error e, out.st, out.fs, out.calls, []⟩
  | Except.ok kw => ⟨Except.ok (), out.st, out.fs, out.calls, [kw]⟩

/-- `GromacsCommandMultiIndex.__init__`: starts from a fresh instance. -/
def initMulti (makeNdx : MakeNdxCall → Except PyErr Unit)
    (fs : FS) (kwargs : Kwargs) : RunOut :=
  runMulti makeNdx emptyState fs kwargs

/-- Modelled from the spec: `utilities.unlink_gmx` (the module `utilities` is
not part of this repository slice) deletes the given file; deleting a missing
file raises an `OSError`, and a deletion that the filesystem refuses (a locked
path) raises a permission `OSError`. -/
def unlink_gmx (fs : FS) (p : String) : Except PyErr FS :=
  if p ∈ fs.locked then Except.error (PyErr.osError OSErrKind.permissionDenied)
  else if p ∈ fs.files then Except.ok ⟨fs.files.erase p, fs.locked⟩
  else Except.error (PyErr.osError OSErrKind.noSuchFile)

/-- `GromacsCommandMultiIndex.__del__`: attempt `unlink_gmx(self.multi_ndx)`;
reading the attribute of an instance that never set it raises
`AttributeError`; the `except (AttributeError, OSError)` clause swallows those
exceptions and any other error re-raises (there is none to re-raise). -/
def del_multi (self : MultiIndexState) (fs : FS) : Except PyErr FS :=
  let attempt : Except PyErr FS :=
    match self.multi_ndx with
    | Option.none => Except.error PyErr.attributeError
    | some p => unlink_gmx fs p
  match attempt with
  | Except.ok fs1 => Except.ok fs1
  | Except.error PyErr.attributeError => Except.ok fs
  | Except.error (PyErr.osError _) => Except.ok fs
  | Except.error e => Except.error e

/-- The base class a generated class inherits from: `GromacsCommand` for the
tool-name-derived classes, `GromacsCommandMultiIndex` for the two patched
classes, `Command` for external-script classes. -/
inductive BaseClass where
  | gromacsCommand : BaseClass
  | multiIndexCommand : BaseClass
  | command : BaseClass
deriving DecidableEq

/-- A generated class: its base class, its `command_name` class attribute and
its docstring. -/
structure ToolClass where
  base : BaseClass
  command_name : String
  doc : String
deriving DecidableEq

/-- The module-level `registry` dict, as a map from class name to class. -/
def Registry := String → Option ToolClass

/-- The empty dict `{}`. -/
def Registry.empty : Registry := fun _ => Option.none

/-- `registry[k] = v`. -/
def Registry.set (r : Registry) (k : String) (v : ToolClass) : Registry :=
  fun q => if q = k then some v else r q

/-- Python `s.replace(a, b)` for a single-character pattern: replace every
occurrence of the character `a` by `b`. -/
def replaceChar (a b : Char) (s : String) : String :=
  String.mk (s.data.map (fun c => if c = a then b else c))

/-- Python `str.capitalize()` (ASCII): first character uppercased, every
remaining character lowercased. -/
def pyCapitalize (s : String) : String :=
  match s.data with
  | [] => ""
  | c :: cs => String.mk (c.toUpper :: cs.map Char.toLower)

/-- The registry key for a configured tool name:
`name.replace('.','_').replace('-','_').capitalize()`. -/
def clsnameOf (name : String) : String :=
  pyCapitalize (replaceChar '-' '_' (replaceChar '.' '_' name))

/-- The class the generic factory generates for a tool name:
`type(clsname, (GromacsCommand,), {'command_name': '{}_mpi'.format(name), ...})`. -/
def mkToolClass (name : String) : ToolClass :=
  ⟨BaseClass.gromacsCommand, name ++ "_mpi", "Gromacs tool '" ++ name ++ "'."⟩

/-- Lexicographic code-point comparison of character lists (Python string
`<=`). -/
def charListLe : List Char → List Char → Bool
  | [], _ => true
  | _ :: _, [] => false
  | a :: as, b :: bs =>
    if a.toNat < b.toNat then true
    else if b.toNat < a.toNat then false
    else charListLe as bs

/-- Python string comparison `a <= b`. -/
def strLe (a b : String) : Bool := charListLe a.data b.data

/-- `sorted(config.load_tools)`, modelled by a stable sorting function. -/
def sortTools (tools : List String) : List String :=
  List.insertionSort (fun a b => strLe a b = true) tools

/-- The registry after the generic factory loop
`for name in sorted(config.load_tools): ... registry[clsname] = cls`. -/
def toolRegistry (tools : List String) : Registry :=
  (sortTools tools).foldl (fun r name => r.set (clsnameOf name) (mkToolClass name)) Registry.empty

/-- The patched `G_mindist` class: inherits `GromacsCommandMultiIndex`,
`command_name = 'g_mindist'`. -/
def gMindistClass : ToolClass :=
  ⟨BaseClass.multiIndexCommand, "g_mindist",
   "Gromacs tool 'g_mindist' (with patch to handle multiple ndx files)."⟩

/-- The patched `G_dist` class: inherits `GromacsCommandMultiIndex`,
`command_name = 'g_dist'`. -/
def gDistClass : ToolClass :=
  ⟨BaseClass.multiIndexCommand, "g_dist",
   "Gromacs tool 'g_dist' (with patch to handle multiple ndx files)."⟩

/-- The two `if 'G_mindist' in registry: ... registry['G_mindist'] = G_mindist`
patch blocks. -/
def patchRegistry (r : Registry) : Registry :=
  let r1 := if (r "G_mindist").isSome then r.set "G_mindist" gMindistClass else r
  if (r1 "G_dist").isSome then r1.set "G_dist" gDistClass else r1

/-- One record of `config.load_scripts`: `(name, clsname, doc)` where `name`
is the script's path. -/
structure ScriptRec where
  name : String
  clsname : String
  doc : String
deriving DecidableEq

/-- Characters after the last `/` of a character list (`cur` accumulates the
current component in reverse). -/
def basenameAux (cur : List Char) : List Char → List Char
  | [] => cur.reverse
  | c :: cs => if c = '/' then basenameAux [] cs else basenameAux (c :: cur) cs

/-- `os.path.basename`: the component after the last path separator `/`. -/
def basename (p : String) : String :=
  String.mk (basenameAux [] p.data)

/-- The class generated for an external script:
`type(clsname, (Command,), {'command_name': name, ...})`. -/
def mkScriptClass (rec : ScriptRec) : ToolClass :=
  ⟨BaseClass.command, rec.name,
   "External tool '" ++ basename rec.name ++ "'\n\n" ++ rec.doc ++ "."⟩

/-- The loop `for rec in config.load_scripts: ... registry[clsname] = ...`. -/
def addScripts (r : Registry) (scripts : List ScriptRec) : Registry :=
  scripts.foldl (fun r rec => r.set rec.clsname (mkScriptClass rec)) r

/-- The registry at the end of module load: generic factory, then the two
patches, then the external scripts. -/
def buildRegistry (tools : List String) (scripts : List ScriptRec) : Registry :=
  addScripts (patchRegistry (toolRegistry tools)) scripts

/-- Left-biased choice on `Option`, used to state what a sequence of dict
assignments yields. -/
def oor {α : Type} : Option α → Option α → Option α
  | some a, _ => some a
  | Option.none, b => b

/-- The binding a sequence of dict assignments `registry[f a] = g a` (one per
element of `l`, later assignments overwriting earlier ones) gives to key `k`. -/
def lastBinding {α : Type} (f : α → String) (g : α → ToolClass) :
    List α → String → Option ToolClass
  | [], _ => Option.none
  | a :: l, k =>
    match lastBinding f g l k with
    | some v => some v
    | Option.none => if f a = k then some (g a) else Option.none

/-- Concrete kwargs: two index files and a structure file. -/
def kw0 : Kwargs :=
  fun k => if k = "n" then PyVal.list ["a.ndx", "b.ndx"]
           else if k = "s" then PyVal.str "top.tpr" else PyVal.none

/-- Concrete filesystem holding the two index files. -/
def fs0 : FS := ⟨["a.ndx", "b.ndx"], []⟩

/-- A `Make_ndx` oracle that always succeeds. -/
def mk0 : MakeNdxCall → Except PyErr Unit := fun _ => Except.ok ()

/-- A `Make_ndx` oracle that always fails. -/
def mkE : MakeNdxCall → Except PyErr Unit :=
  fun _ => Except.error (PyErr.gmxError "Make_ndx failed")

/-- Concrete kwargs with no index argument. -/
def kwNone : Kwargs := fun _ => PyVal.none

/-- Concrete kwargs whose index argument is an integer. -/
def kwInt : Kwargs := fun k => if k = "n" then PyVal.int 3 else PyVal.none

/-! ## Helper lemmas -/

theorem length_le_max_of_mem {p : String} {l : List String} (h : p ∈ l) :
    p.length ≤ (l.map String.length).foldr max 0 := by
  induction l with
  | nil => cases h
  | cons a t ih =>
    simp only [List.map_cons, List.foldr_cons]
    rcases List.mem_cons.1 h with rfl | ht
    · exact le_max_left _ _
    · exact le_trans (ih ht) (le_max_right _ _)

theorem mkstempName_length (pre suf : String) (ex : List String) :
    (mkstempName pre suf ex).length =
      pre.length + (((ex.map String.length).foldr max 0) + 1) + suf.length := by
  unfold mkstempName
  rw [String.length_append, String.length_append]
  have hmid : (String.mk (List.replicate ((ex.map String.length).foldr max 0 + 1) 'a')).length
      = (ex.map String.length).foldr max 0 + 1 := by
    show (List.replicate ((ex.map String.length).foldr max 0 + 1) 'a').length = _
    simp
  rw [hmid]

theorem mkstempName_not_mem (pre suf : String) (ex : List String) :
    mkstempName pre suf ex ∉ ex := by
  intro h
  have h1 := length_le_max_of_mem h
  rw [mkstempName_length] at h1
  omega

/-- Behaviour of `_fake_multi_ndx` on a multi-element index list, as a single
equation. -/
theorem fake_multi_ndx_multi (makeNdx : MakeNdxCall → Except PyErr Unit)
    (self : MultiIndexState) (fs : FS) (kw : Kwargs) (l : List String)
    (hn : kw.get "n" = PyVal.list l) (hlen : 1 < l.length) :
    fake_multi_ndx makeNdx self fs kw =
      (match makeNdx ⟨kw.get "s", PyVal.list l, mkstempName "multi_" ".ndx" fs.files⟩ with
       | Except.error e =>
          ⟨Except.error e, ⟨some (mkstempName "multi_" ".ndx" fs.files), self.orig_ndx⟩,
           ⟨mkstempName "multi_" ".ndx" fs.files :: fs.files, fs.locked⟩,
           [⟨kw.get "s", PyVal.list l, mkstempName "multi_" ".ndx" fs.files⟩]⟩
       | Except.ok _ =>
          ⟨Except.ok (kw.set "n" (PyVal.str (mkstempName "multi_" ".ndx" fs.files))),
           ⟨some (mkstempName "multi_" ".ndx" fs.files), some (PyVal.list l)⟩,
           ⟨mkstempName "multi_" ".ndx" fs.files :: fs.files, fs.locked⟩,
           [⟨kw.get "s", PyVal.list l, mkstempName "multi_" ".ndx" fs.files⟩]⟩) := by
  unfold fake_multi_ndx
  rw [hn]
  simp only [isNoneOrStr, pyLen, Bool.false_eq_true, if_false, gt_iff_lt, hlen, if_true]

/-- Behaviour of `_fake_multi_ndx` when the index argument is `None`, a
string, or raises on `len()`, or has length at most 1. -/
theorem fake_multi_ndx_passthrough (makeNdx : MakeNdxCall → Except PyErr Unit)
    (self : MultiIndexState) (fs : FS) (kw : Kwargs)
    (h : kw.get "n" = PyVal.none ∨ (∃ fn, kw.get "n" = PyVal.str fn) ∨
         (∃ l, kw.get "n" = PyVal.list l ∧ l.length ≤ 1)) :
    fake_multi_ndx makeNdx self fs kw = ⟨Except.ok kw, self, fs, []⟩ := by
  unfold fake_multi_ndx
  rcases h with h | ⟨fn, h⟩ | ⟨l, h, hle⟩ <;> rw [h]
  · simp [isNoneOrStr]
  · simp [isNoneOrStr]
  · simp only [isNoneOrStr, Bool.false_eq_true, if_false, pyLen, gt_iff_lt]
    rw [if_neg (by omega)]

/-- Claim C1: when the index argument `n` is a non-string sequence of length
greater than 1, `_fake_multi_ndx` returns the kwargs with `n` replaced by a
single newly allocated temporary path (of the form `multi_...ndx`) that
differs from every input path, leaves every other keyword untouched, and
issues exactly one `Make_ndx` invocation referencing the structure-file
argument `s` and the full original list of index files. -/
theorem multi_index_merge_replaces_ndx
    (makeNdx : MakeNdxCall → Except PyErr Unit) (self : MultiIndexState)
    (fs : FS) (kw : Kwargs) (l : List String)
    (hn : kw.get "n" = PyVal.list l) (hlen : 1 < l.length)
    (hex : ∀ p ∈ l, p ∈ fs.files)
    (hok : makeNdx ⟨kw.get "s", PyVal.list l, mkstempName "multi_" ".ndx" fs.files⟩
           = Except.ok ()) :
    (fake_multi_ndx makeNdx self fs kw).result =
        Except.ok (kw.set "n" (PyVal.str (mkstempName "multi_" ".ndx" fs.files))) ∧
    (∃ mid : String,
        mkstempName "multi_" ".ndx" fs.files = "multi_" ++ mid ++ ".ndx") ∧
    mkstempName "multi_" ".ndx" fs.files ∉ fs.files ∧
    (∀ p ∈ l, mkstempName "multi_" ".ndx" fs.files ≠ p) ∧
    (fake_multi_ndx makeNdx self fs kw).calls =
        [⟨kw.get "s", PyVal.list l, mkstempName "multi_" ".ndx" fs.files⟩] ∧
    (∀ k, k ≠ "n" →
      (kw.set "n" (PyVal.str (mkstempName "multi_" ".ndx" fs.files))).get k = kw.get k) := by
  have hm := fake_multi_ndx_multi makeNdx self fs kw l hn hlen
  rw [hok] at hm
  refine ⟨by rw [hm], ⟨_, rfl⟩, mkstempName_not_mem _ _ _, ?_, by rw [hm], ?_⟩
  · intro p hp heq
    exact mkstempName_not_mem "multi_" ".ndx" fs.files (heq ▸ hex p hp)
  · intro k hk
    simp [Kwargs.set, Kwargs.get, hk]

/-- Witness for C1 at concrete inputs. -/
theorem multi_index_merge_replaces_ndx_witness :
    (fake_multi_ndx mk0 emptyState fs0 kw0).result =
        Except.ok (kw0.set "n" (PyVal.str (mkstempName "multi_" ".ndx" fs0.files))) ∧
    (∃ mid : String,
        mkstempName "multi_" ".ndx" fs0.files = "multi_" ++ mid ++ ".ndx") ∧
    mkstempName "multi_" ".ndx" fs0.files ∉ fs0.files ∧
    (∀ p ∈ ["a.ndx", "b.ndx"], mkstempName "multi_" ".ndx" fs0.files ≠ p) ∧
    (fake_multi_ndx mk0 emptyState fs0 kw0).calls =
        [⟨kw0.get "s", PyVal.list ["a.ndx", "b.ndx"], mkstempName "multi_" ".ndx" fs0.files⟩] ∧
    (∀ k, k ≠ "n" →
      (kw0.set "n" (PyVal.str (mkstempName "multi_" ".ndx" fs0.files))).get k = kw0.get k) :=
  multi_index_merge_replaces_ndx mk0 emptyState fs0 kw0 ["a.ndx", "b.ndx"]
    rfl (by decide) (by decide) rfl

/-- Claim C2: when the index argument is absent (`None`), a single filename
string, or a sequence with at most one element, `_fake_multi_ndx` returns the
kwargs unchanged, creates no temporary file, and issues no `Make_ndx`
invocation. -/
theorem single_index_passthrough
    (makeNdx : MakeNdxCall → Except PyErr Unit) (self : MultiIndexState)
    (fs : FS) (kw : Kwargs)
    (h : kw.get "n" = PyVal.none ∨ (∃ fn, kw.get "n" = PyVal.str fn) ∨
         (∃ l, kw.get "n" = PyVal.list l ∧ l.length ≤ 1)) :
    fake_multi_ndx makeNdx self fs kw = ⟨Except.ok kw, self, fs, []⟩ :=
  fake_multi_ndx_passthrough makeNdx self fs kw h

/-- Witness for C2 at concrete inputs. -/
theorem single_index_passthrough_witness :
    fake_multi_ndx mk0 emptyState fs0 kwNone = ⟨Except.ok kwNone, emptyState, fs0, []⟩ :=
  single_index_passthrough mk0 emptyState fs0 kwNone (Or.inl rfl)

/-- Claim C10: when the index argument is neither `None` nor a string and has
no `len()` (an integer), `_fake_multi_ndx` raises `TypeError`, so the
decorated `__init__`/`run` fails before any delegation to the base command
wrapper, no `Make_ndx` invocation is issued, and the filesystem is
untouched. -/
theorem int_index_raises_typeerror
    (makeNdx : MakeNdxCall → Except PyErr Unit) (self : MultiIndexState)
    (fs : FS) (kw : Kwargs) (i : Int)
    (hn : kw.get "n" = PyVal.int i) :
    runMulti makeNdx self fs kw = ⟨Except.error PyErr.typeError, self, fs, [], []⟩ ∧
    initMulti makeNdx fs kw = ⟨Except.error PyErr.typeError, emptyState, fs, [], []⟩ := by
  have hf : ∀ s : MultiIndexState,
      fake_multi_ndx makeNdx s fs kw = ⟨Except.error PyErr.typeError, s, fs, []⟩ := by
    intro s
    unfold fake_multi_ndx
    rw [hn]
    simp [isNoneOrStr, pyLen]
  constructor
  · unfold runMulti
    rw [hf self]
  · unfold initMulti runMulti
    rw [hf emptyState]

/-- Witness for C10 at concrete inputs. -/
theorem int_index_raises_typeerror_witness :
    runMulti mk0 emptyState fs0 kwInt
      = ⟨Except.error PyErr.typeError, emptyState, fs0, [], []⟩ ∧
    initMulti mk0 fs0 kwInt
      = ⟨Except.error PyErr.typeError, emptyState, fs0, [], []⟩ :=
  int_index_raises_typeerror mk0 emptyState fs0 kwInt 3 rfl

/-- Claim C7: when the `Make_ndx` invocation issued by `_fake_multi_ndx`
fails, its failure propagates unmodified to the caller of the decorated
`__init__`/`run`, and the base command wrapper is never reached. -/
theorem make_ndx_failure_propagates
    (makeNdx : MakeNdxCall → Except PyErr Unit) (self : MultiIndexState)
    (fs : FS) (kw : Kwargs) (l : List String) (e : PyErr)
    (hn : kw.get "n" = PyVal.list l) (hlen : 1 < l.length)
    (herr : makeNdx ⟨kw.get "s", PyVal.list l, mkstempName "multi_" ".ndx" fs.files⟩
            = Except.error e) :
    (runMulti makeNdx self fs kw).result = Except.error e ∧
    (runMulti makeNdx self fs kw).baseKwargs = [] ∧
    (initMulti makeNdx fs kw).result = Except.error e ∧
    (initMulti makeNdx fs kw).baseKwargs = [] := by
  have hr : ∀ s : MultiIndexState,
      runMulti makeNdx s fs kw =
        ⟨Except.error e, ⟨some (mkstempName "multi_" ".ndx" fs.files), s.orig_ndx⟩,
         ⟨mkstempName "multi_" ".ndx" fs.files :: fs.files, fs.locked⟩,
         [⟨kw.get "s", PyVal.list l, mkstempName "multi_" ".ndx" fs.files⟩], []⟩ := by
    intro s
    unfold runMulti
    rw [fake_multi_ndx_multi makeNdx s fs kw l hn hlen, herr]
  exact ⟨by rw [hr self], by rw [hr self], by unfold initMulti; rw [hr emptyState],
         by unfold initMulti; rw [hr emptyState]⟩

/-- Witness for C7 at concrete inputs. -/
theorem make_ndx_failure_propagates_witness :
    (runMulti mkE emptyState fs0 kw0).result = Except.error (PyErr.gmxError "Make_ndx failed") ∧
    (runMulti mkE emptyState fs0 kw0).baseKwargs = [] ∧
    (initMulti mkE fs0 kw0).result = Except.error (PyErr.gmxError "Make_ndx failed") ∧
    (initMulti mkE fs0 kw0).baseKwargs = [] :=
  make_ndx_failure_propagates mkE emptyState fs0 kw0 ["a.ndx", "b.ndx"]
    (PyErr.gmxError "Make_ndx failed") rfl (by decide) rfl

/-- Claim C4: `__del__` never raises: the attempt to delete the temporary
file is swallowed whether the attribute was never set (`AttributeError`), the
file no longer exists (`OSError`), or deletion fails for another filesystem
reason (permission `OSError`). -/
theorem del_never_raises :
    (∀ (self : MultiIndexState) (fs : FS), ∃ fs1, del_multi self fs = Except.ok fs1) ∧
    (∀ (o : Option PyVal) (fs : FS), del_multi ⟨Option.none, o⟩ fs = Except.ok fs) ∧
    (∀ (p : String) (o : Option PyVal) (fs : FS), p ∉ fs.locked → p ∉ fs.files →
        del_multi ⟨some p, o⟩ fs = Except.ok fs) ∧
    (∀ (p : String) (o : Option PyVal) (fs : FS), p ∈ fs.locked →
        del_multi ⟨some p, o⟩ fs = Except.ok fs) := by
  refine ⟨?_, ?_, ?_, ?_⟩
  · intro self fs
    rcases self with ⟨mndx, ondx⟩
    cases mndx with
    | none => exact ⟨fs, rfl⟩
    | some p =>
      by_cases h1 : p ∈ fs.locked
      · exact ⟨fs, by simp [del_multi, unlink_gmx, h1]⟩
      · by_cases h2 : p ∈ fs.files
        · exact ⟨⟨fs.files.erase p, fs.locked⟩, by simp [del_multi, unlink_gmx, h1, h2]⟩
        · exact ⟨fs, by simp [del_multi, unlink_gmx, h1, h2]⟩
  · intro o fs; rfl
  · intro p o fs h1 h2
    simp [del_multi, unlink_gmx, h1, h2]
  · intro p o fs h1
    simp [del_multi, unlink_gmx, h1]

/-- Witness for C4: a locked (permission-denied) temporary file still makes
`__del__` return normally. -/
theorem del_never_raises_witness :
    del_multi ⟨some "t.ndx", Option.none⟩ ⟨[], ["t.ndx"]⟩
      = Except.ok ⟨[], ["t.ndx"]⟩ :=
  del_never_raises.2.2.2 "t.ndx" Option.none ⟨[], ["t.ndx"]⟩ (by decide)

/-- Counterexample to claim C5 as stated: an instance that performs two
multi-file invocations creates two temporary files but `__del__` deletes only
the remembered (most recent) one, so a temporary file the instance created
during its lifetime still exists after destruction. -/
theorem second_invocation_leaks_first_tempfile :
    ((runMulti mk0 emptyState fs0 kw0).calls
        ++ (runMulti mk0 (runMulti mk0 emptyState fs0 kw0).st
              (runMulti mk0 emptyState fs0 kw0).fs kw0).calls).map MakeNdxCall.o
      = ["multi_aaaaaa.ndx", "multi_aaaaaaaaaaaaaaaaa.ndx"] ∧
    "multi_aaaaaa.ndx" ∉ fs0.files ∧
    del_multi (runMulti mk0 (runMulti mk0 emptyState fs0 kw0).st
                 (runMulti mk0 emptyState fs0 kw0).fs kw0).st
              (runMulti mk0 (runMulti mk0 emptyState fs0 kw0).st
                 (runMulti mk0 emptyState fs0 kw0).fs kw0).fs
      = Except.ok ⟨["multi_aaaaaa.ndx", "a.ndx", "b.ndx"], []⟩ ∧
    "multi_aaaaaa.ndx" ∈ (["multi_aaaaaa.ndx", "a.ndx", "b.ndx"] : List String) := by
  decide

/-- Claim C5 (amended): each multi-file invocation allocates a fresh
uniquely-named temporary file and remembers its path on the instance
(overwriting any earlier one); destroying the instance removes the most
recently created temporary file from disk, and destroying an instance that
never created one returns normally and leaves the filesystem unchanged. -/
theorem del_removes_last_tempfile
    (makeNdx : MakeNdxCall → Except PyErr Unit) (self : MultiIndexState)
    (fs : FS) (kw : Kwargs) (l : List String)
    (hn : kw.get "n" = PyVal.list l) (hlen : 1 < l.length)
    (hok : makeNdx ⟨kw.get "s", PyVal.list l, mkstempName "multi_" ".ndx" fs.files⟩
           = Except.ok ())
    (hlock : ∀ p ∈ fs.locked, p ∈ fs.files) :
    (runMulti makeNdx self fs kw).st.multi_ndx
        = some (mkstempName "multi_" ".ndx" fs.files) ∧
    mkstempName "multi_" ".ndx" fs.files ∉ fs.files ∧
    del_multi (runMulti makeNdx self fs kw).st (runMulti makeNdx self fs kw).fs
        = Except.ok fs ∧
    (∀ fs2 : FS, del_multi emptyState fs2 = Except.ok fs2) := by
  have hr : runMulti makeNdx self fs kw =
      ⟨Except.ok (), ⟨some (mkstempName "multi_" ".ndx" fs.files), some (PyVal.list l)⟩,
       ⟨mkstempName "multi_" ".ndx" fs.files :: fs.files, fs.locked⟩,
       [⟨kw.get "s", PyVal.list l, mkstempName "multi_" ".ndx" fs.files⟩],
       [kw.set "n" (PyVal.str (mkstempName "multi_" ".ndx" fs.files))]⟩ := by
    unfold runMulti
    rw [fake_multi_ndx_multi makeNdx self fs kw l hn hlen, hok]
  have hfresh := mkstempName_not_mem "multi_" ".ndx" fs.files
  have hnl : mkstempName "multi_" ".ndx" fs.files ∉ fs.locked :=
    fun h => hfresh (hlock _ h)
  refine ⟨by rw [hr], hfresh, ?_, fun fs2 => rfl⟩
  rw [hr]
  simp [del_multi, unlink_gmx, hnl, List.erase_cons_head]

/-- Witness for C5 (amended) at concrete inputs. -/
theorem del_removes_last_tempfile_witness :
    (runMulti mk0 emptyState fs0 kw0).st.multi_ndx
        = some (mkstempName "multi_" ".ndx" fs0.files) ∧
    mkstempName "multi_" ".ndx" fs0.files ∉ fs0.files ∧
    del_multi (runMulti mk0 emptyState fs0 kw0).st (runMulti mk0 emptyState fs0 kw0).fs
        = Except.ok fs0 ∧
    (∀ fs2 : FS, del_multi emptyState fs2 = Except.ok fs2) :=
  del_removes_last_tempfile mk0 emptyState fs0 kw0 ["a.ndx", "b.ndx"]
    rfl (by decide) rfl (by decide)

/-! ## Registry helper lemmas -/

theorem Registry.set_self (r : Registry) (k : String) (v : ToolClass) :
    (r.set k v) k = some v := by
  simp [Registry.set]

theorem Registry.set_ne (r : Registry) (k q : String) (v : ToolClass) (h : q ≠ k) :
    (r.set k v) q = r q := by
  simp [Registry.set, h]

theorem foldl_set_apply {α : Type} (f : α → String) (g : α → ToolClass) :
    ∀ (l : List α) (r : Registry) (k : String),
      (l.foldl (fun r a => r.set (f a) (g a)) r) k = oor (lastBinding f g l k) (r k) := by
  intro l
  induction l with
  | nil => intro r k; simp [lastBinding, oor]
  | cons a t ih =>
    intro r k
    rw [List.foldl_cons, ih]
    show oor (lastBinding f g t k) ((r.set (f a) (g a)) k)
      = oor (lastBinding f g (a :: t) k) (r k)
    rcases hlb : lastBinding f g t k with _ | v
    · by_cases hk : f a = k
      · simp [oor, lastBinding, hlb, hk, Registry.set]
      · have hk2 : k ≠ f a := fun h => hk h.symm
        simp [oor, lastBinding, hlb, hk, Registry.set, hk2]
    · simp [oor, lastBinding, hlb]

theorem lastBinding_eq_none {α : Type} (f : α → String) (g : α → ToolClass)
    (l : List α) (k : String) (h : ∀ a ∈ l, f a ≠ k) :
    lastBinding f g l k = Option.none := by
  induction l with
  | nil => rfl
  | cons a t ih =>
    have ht := ih (fun x hx => h x (List.mem_cons_of_mem a hx))
    simp [lastBinding, ht, h a (List.mem_cons_self a t)]

theorem lastBinding_of_nodup {α : Type} (f : α → String) (g : α → ToolClass)
    (l : List α) (a : α) (hnd : (l.map f).Nodup) (ha : a ∈ l) :
    lastBinding f g l (f a) = some (g a) := by
  induction l with
  | nil => cases ha
  | cons b t ih =>
    rcases List.mem_cons.1 ha with rfl | ht
    · have hnone : lastBinding f g t (f a) = Option.none := by
        apply lastBinding_eq_none
        intro x hx hfx
        have : f a ∈ t.map f := hfx ▸ List.mem_map_of_mem f hx
        exact (List.nodup_cons.1 hnd).1 this
      simp [lastBinding, hnone]
    · have := ih (List.nodup_cons.1 hnd).2 ht
      simp [lastBinding, this]

theorem lastBinding_eq_getLast {α : Type} (f : α → String) (g : α → ToolClass)
    (l : List α) (k : String) :
    lastBinding f g l k
      = Option.map g (l.filter (fun a => decide (f a = k))).getLast? := by
  induction l with
  | nil => rfl
  | cons a t ih =>
    rw [List.filter_cons]
    by_cases hk : f a = k
    · rw [if_pos (by simpa using hk)]
      rcases hf : t.filter (fun a => decide (f a = k)) with _ | ⟨b, t2⟩
      · have : lastBinding f g t k = Option.none := by rw [ih, hf]; rfl
        simp [lastBinding, this, hk]
      · rw [List.getLast?_cons_cons]
        have h2 : lastBinding f g t k = Option.map g (b :: t2).getLast? := by
          rw [ih, hf]
        rcases hg : (b :: t2).getLast? with _ | x
        · exact absurd (List.getLast?_eq_none_iff.1 hg) (by simp)
        · rw [hg] at h2
          simp [lastBinding, h2]
    · rw [if_neg (by simpa using hk)]
      have hstep : lastBinding f g (a :: t) k = lastBinding f g t k := by
        rcases hlb : lastBinding f g t k with _ | v
        · simp [lastBinding, hlb, hk]
        · simp [lastBinding, hlb]
      rw [hstep, ih]

theorem toolRegistry_apply (tools : List String) (k : String) :
    toolRegistry tools k
      = Option.map mkToolClass
          ((sortTools tools).filter (fun n => decide (clsnameOf n = k))).getLast? := by
  unfold toolRegistry
  rw [foldl_set_apply clsnameOf mkToolClass (sortTools tools) Registry.empty k,
      lastBinding_eq_getLast]
  rcases h : Option.map mkToolClass
      ((sortTools tools).filter (fun n => decide (clsnameOf n = k))).getLast? with _ | v
  · rfl
  · rfl

theorem getLast?_of_all_eq {α : Type} :
    ∀ (l : List α) (a : α), l ≠ [] → (∀ x ∈ l, x = a) → l.getLast? = some a
  | [], a, hne, _ => absurd rfl hne
  | [x], a, _, hall => by rw [hall x (List.mem_singleton_self x)]; rfl
  | x :: y :: t, a, _, hall => by
      rw [List.getLast?_cons_cons]
      exact getLast?_of_all_eq (y :: t) a (List.cons_ne_nil y t)
        (fun z hz => hall z (List.mem_cons_of_mem x hz))

theorem mem_sortTools {tools : List String} {n : String} :
    n ∈ sortTools tools ↔ n ∈ tools :=
  List.mem_insertionSort _

theorem toolRegistry_isSome_iff (tools : List String) (k : String) :
    (toolRegistry tools k).isSome = true ↔ ∃ n ∈ tools, clsnameOf n = k := by
  rw [toolRegistry_apply, Option.isSome_map']
  rw [← Option.ne_none_iff_isSome]
  rw [Ne, List.getLast?_eq_none_iff, List.filter_eq_nil_iff]
  constructor
  · intro h
    by_contra hn
    push_neg at hn
    exact h (fun a ha => by
      simp only [decide_eq_true_eq]
      exact fun hc => hn a (mem_sortTools.1 ha) hc)
  · rintro ⟨n, hn, hcn⟩ hall
    have h2 := hall n (mem_sortTools.2 hn)
    simp only [decide_eq_true_eq] at h2
    exact h2 hcn

theorem toolRegistry_of_unique (tools : List String) (name : String)
    (hmem : name ∈ tools)
    (huniq : ∀ b ∈ tools, clsnameOf b = clsnameOf name → b = name) :
    toolRegistry tools (clsnameOf name) = some (mkToolClass name) := by
  rw [toolRegistry_apply]
  have hflt : ((sortTools tools).filter
      (fun n => decide (clsnameOf n = clsnameOf name))).getLast? = some name := by
    apply getLast?_of_all_eq
    · intro hemp
      have : name ∈ (sortTools tools).filter
          (fun n => decide (clsnameOf n = clsnameOf name)) :=
        List.mem_filter.2 ⟨mem_sortTools.2 hmem, by simp⟩
      rw [hemp] at this
      cases this
    · intro x hx
      have hx2 := List.mem_filter.1 hx
      exact huniq x (mem_sortTools.1 hx2.1) (by simpa using hx2.2)
  rw [hflt]
  rfl

theorem patchRegistry_mindist (r : Registry) :
    patchRegistry r "G_mindist"
      = if (r "G_mindist").isSome then some gMindistClass else Option.none := by
  unfold patchRegistry
  by_cases h1 : (r "G_mindist").isSome
  · have hd : ((if (r "G_mindist").isSome then r.set "G_mindist" gMindistClass else r)
        "G_mindist") = some gMindistClass := by
      rw [if_pos h1, Registry.set_self]
    by_cases h2 : (((if (r "G_mindist").isSome
        then r.set "G_mindist" gMindistClass else r) "G_dist")).isSome
    · rw [if_pos h2, Registry.set_ne _ _ _ _ (by decide), hd, if_pos h1]
    · rw [if_neg h2, hd, if_pos h1]
  · have hd : ((if (r "G_mindist").isSome then r.set "G_mindist" gMindistClass else r)
        "G_mindist") = Option.none := by
      rw [if_neg h1]
      exact Option.not_isSome_iff_eq_none.1 h1
    by_cases h2 : (((if (r "G_mindist").isSome
        then r.set "G_mindist" gMindistClass else r) "G_dist")).isSome
    · rw [if_pos h2, Registry.set_ne _ _ _ _ (by decide), hd, if_neg h1]
    · rw [if_neg h2, hd, if_neg h1]

theorem patchRegistry_dist (r : Registry) :
    patchRegistry r "G_dist"
      = if (r "G_dist").isSome then some gDistClass else Option.none := by
  unfold patchRegistry
  have hgd : ((if (r "G_mindist").isSome then r.set "G_mindist" gMindistClass else r)
      "G_dist") = r "G_dist" := by
    by_cases h1 : (r "G_mindist").isSome
    · rw [if_pos h1, Registry.set_ne _ _ _ _ (by decide)]
    · rw [if_neg h1]
  rw [hgd]
  by_cases h2 : (r "G_dist").isSome
  · rw [if_pos (hgd ▸ h2), Registry.set_self, if_pos h2]
  · rw [if_neg (hgd ▸ h2), hgd, if_neg h2]
    exact Option.not_isSome_iff_eq_none.1 h2

theorem patchRegistry_other (r : Registry) (k : String)
    (h1 : k ≠ "G_mindist") (h2 : k ≠ "G_dist") :
    patchRegistry r k = r k := by
  unfold patchRegistry
  by_cases hm : (r "G_mindist").isSome
  · rw [if_pos hm]
    by_cases hd : ((r.set "G_mindist" gMindistClass) "G_dist").isSome
    · rw [if_pos hd, Registry.set_ne _ _ _ _ h2, Registry.set_ne _ _ _ _ h1]
    · rw [if_neg hd, Registry.set_ne _ _ _ _ h1]
  · rw [if_neg hm]
    by_cases hd : (r "G_dist").isSome
    · rw [if_pos hd, Registry.set_ne _ _ _ _ h2]
    · rw [if_neg hd]

theorem addScripts_apply (r : Registry) (scripts : List ScriptRec) (k : String) :
    addScripts r scripts k
      = oor (lastBinding ScriptRec.clsname mkScriptClass scripts k) (r k) :=
  foldl_set_apply ScriptRec.clsname mkScriptClass scripts r k

/-- Claim C9: the registry key for a configured tool name is the name with
`.` and `-` turned into `_` and then Python-capitalized, the binding a key
receives is the one of the last name in sorted order that maps to it (later
names silently overwrite earlier ones), and names differing only in letter
case or separators collide on the same key. -/
theorem registry_key_overwrite :
    (∀ (tools : List String) (k : String),
      toolRegistry tools k
        = Option.map mkToolClass
            ((sortTools tools).filter (fun n => decide (clsnameOf n = k))).getLast?) ∧
    clsnameOf "g_dist" = "G_dist" ∧
    clsnameOf "G_DIST" = "G_dist" ∧
    clsnameOf "g.dist" = "G_dist" ∧
    sortTools ["g_dist", "G_DIST"] = ["G_DIST", "g_dist"] ∧
    toolRegistry ["g_dist", "G_DIST"] "G_dist" = some (mkToolClass "g_dist") :=
  ⟨toolRegistry_apply, by decide, by decide, by decide, by decide, by decide⟩

/-- Counterexample to claim C3 as stated: with `g_mindist` configured, the
registry class for it is the patched class whose `command_name` is plain
`g_mindist`, not `g_mindist` with the `_mpi` suffix appended. -/
theorem patched_tool_lacks_mpi_suffix :
    "g_mindist" ∈ ["g_mindist"] ∧
    buildRegistry ["g_mindist"] [] (clsnameOf "g_mindist") = some gMindistClass ∧
    gMindistClass.command_name = "g_mindist" ∧
    gMindistClass.command_name ≠ "g_mindist" ++ "_mpi" := by
  decide

/-- Claim C3 (amended): for every configured tool name (tool names mapping to
distinct registry keys, script class names not colliding with them), a class
named after it exists in the registry; its `command_name` is the tool name
with the `_mpi` suffix appended, except that the two specially patched
registry keys `G_mindist` and `G_dist` carry the patched classes whose
`command_name` is the plain tool name without the suffix. -/
theorem tool_classes_registered (tools : List String) (scripts : List ScriptRec)
    (huniq : ∀ a ∈ tools, ∀ b ∈ tools, clsnameOf a = clsnameOf b → a = b)
    (hscr : ∀ rec ∈ scripts, ∀ n ∈ tools, rec.clsname ≠ clsnameOf n) :
    ∀ name ∈ tools, ∃ e : ToolClass,
      buildRegistry tools scripts (clsnameOf name) = some e ∧
      (clsnameOf name ≠ "G_mindist" → clsnameOf name ≠ "G_dist" →
        e = mkToolClass name ∧ e.command_name = name ++ "_mpi"
          ∧ e.base = BaseClass.gromacsCommand) ∧
      (clsnameOf name = "G_mindist" → e = gMindistClass) ∧
      (clsnameOf name = "G_dist" → e = gDistClass) := by
  intro name hname
  have htool : toolRegistry tools (clsnameOf name) = some (mkToolClass name) :=
    toolRegistry_of_unique tools name hname (fun b hb h => huniq b hb name hname h)
  have hlb : lastBinding ScriptRec.clsname mkScriptClass scripts (clsnameOf name)
      = Option.none :=
    lastBinding_eq_none _ _ _ _ (fun rec hrec => hscr rec hrec name hname)
  have hbuild : buildRegistry tools scripts (clsnameOf name)
      = patchRegistry (toolRegistry tools) (clsnameOf name) := by
    unfold buildRegistry
    rw [addScripts_apply, hlb]
    rfl
  by_cases h1 : clsnameOf name = "G_mindist"
  · refine ⟨gMindistClass, ?_, fun h _ => absurd h1 h, fun _ => rfl, fun h2 => ?_⟩
    · rw [hbuild, h1, patchRegistry_mindist, if_pos (by rw [← h1, htool]; rfl)]
    · exact absurd (h1 ▸ h2) (by decide)
  · by_cases h2 : clsnameOf name = "G_dist"
    · refine ⟨gDistClass, ?_, fun _ h => absurd h2 h, fun h => absurd h h1, fun _ => rfl⟩
      rw [hbuild, h2, patchRegistry_dist, if_pos (by rw [← h2, htool]; rfl)]
    · refine ⟨mkToolClass name, ?_, fun _ _ => ⟨rfl, rfl, rfl⟩,
        fun h => absurd h h1, fun h => absurd h h2⟩
      rw [hbuild, patchRegistry_other _ _ h1 h2, htool]

/-- Witness for C3 (amended) at concrete inputs. -/
theorem tool_classes_registered_witness :
    ∃ e : ToolClass,
      buildRegistry ["g_mindist", "trjconv"] [] (clsnameOf "trjconv") = some e ∧
      (clsnameOf "trjconv" ≠ "G_mindist" → clsnameOf "trjconv" ≠ "G_dist" →
        e = mkToolClass "trjconv" ∧ e.command_name = "trjconv" ++ "_mpi"
          ∧ e.base = BaseClass.gromacsCommand) ∧
      (clsnameOf "trjconv" = "G_mindist" → e = gMindistClass) ∧
      (clsnameOf "trjconv" = "G_dist" → e = gDistClass) :=
  tool_classes_registered ["g_mindist", "trjconv"] [] (by decide)
    (by simp) "trjconv" (by decide)

/-- Claim C6: for each of the two patched names, the registry ends up with
the multi-index subclass exactly when the generic factory produced a class
under that key (some configured tool name maps to it); otherwise the registry
has no entry for it (provided no configured script claims these class
names). -/
theorem patched_iff_generated (tools : List String) (scripts : List ScriptRec)
    (hscr : ∀ rec ∈ scripts, rec.clsname ≠ "G_mindist" ∧ rec.clsname ≠ "G_dist") :
    ((∃ n ∈ tools, clsnameOf n = "G_mindist") →
        buildRegistry tools scripts "G_mindist" = some gMindistClass ∧
        gMindistClass.base = BaseClass.multiIndexCommand) ∧
    (¬ (∃ n ∈ tools, clsnameOf n = "G_mindist") →
        buildRegistry tools scripts "G_mindist" = Option.none) ∧
    ((∃ n ∈ tools, clsnameOf n = "G_dist") →
        buildRegistry tools scripts "G_dist" = some gDistClass ∧
        gDistClass.base = BaseClass.multiIndexCommand) ∧
    (¬ (∃ n ∈ tools, clsnameOf n = "G_dist") →
        buildRegistry tools scripts "G_dist" = Option.none) := by
  have hbm : buildRegistry tools scripts "G_mindist"
      = patchRegistry (toolRegistry tools) "G_mindist" := by
    unfold buildRegistry
    rw [addScripts_apply,
        lastBinding_eq_none _ _ _ _ (fun rec h => (hscr rec h).1)]
    rfl
  have hbd : buildRegistry tools scripts "G_dist"
      = patchRegistry (toolRegistry tools) "G_dist" := by
    unfold buildRegistry
    rw [addScripts_apply,
        lastBinding_eq_none _ _ _ _ (fun rec h => (hscr rec h).2)]
    rfl
  refine ⟨fun h => ⟨?_, rfl⟩, fun h => ?_, fun h => ⟨?_, rfl⟩, fun h => ?_⟩
  · rw [hbm, patchRegistry_mindist,
        if_pos ((toolRegistry_isSome_iff tools "G_mindist").2 h)]
  · rw [hbm, patchRegistry_mindist,
        if_neg (fun hs => h ((toolRegistry_isSome_iff tools "G_mindist").1 hs))]
  · rw [hbd, patchRegistry_dist,
        if_pos ((toolRegistry_isSome_iff tools "G_dist").2 h)]
  · rw [hbd, patchRegistry_dist,
        if_neg (fun hs => h ((toolRegistry_isSome_iff tools "G_dist").1 hs))]

/-- Witness for C6 at concrete inputs: `g_mindist` configured, `g_dist`
not. -/
theorem patched_iff_generated_witness :
    buildRegistry ["g_mindist"] [] "G_mindist" = some gMindistClass ∧
    gMindistClass.base = BaseClass.multiIndexCommand ∧
    buildRegistry ["g_mindist"] [] "G_dist" = Option.none := by
  have h := patched_iff_generated ["g_mindist"] [] (by simp)
  exact ⟨(h.1 ⟨"g_mindist", by decide, by decide⟩).1,
         (h.1 ⟨"g_mindist", by decide, by decide⟩).2,
         h.2.2.2 (by decide)⟩

/-- Claim C8: every configured script record yields exactly one registry
class under its class name, bound to its configured path and based on the
plain `Command` wrapper, and (when script class names are distinct and do not
collide with tool-derived keys) the tool-derived registry entries are
untouched by script registration. -/
theorem script_classes_independent (tools : List String) (scripts : List ScriptRec)
    (hnodup : (scripts.map ScriptRec.clsname).Nodup)
    (hdisj : ∀ rec ∈ scripts, ∀ n ∈ tools, rec.clsname ≠ clsnameOf n) :
    (∀ rec ∈ scripts,
        buildRegistry tools scripts rec.clsname = some (mkScriptClass rec) ∧
        (mkScriptClass rec).command_name = rec.name ∧
        (mkScriptClass rec).base = BaseClass.command) ∧
    (∀ name ∈ tools,
        buildRegistry tools scripts (clsnameOf name)
          = patchRegistry (toolRegistry tools) (clsnameOf name)) := by
  constructor
  · intro rec hrec
    refine ⟨?_, rfl, rfl⟩
    unfold buildRegistry
    rw [addScripts_apply,
        lastBinding_of_nodup ScriptRec.clsname mkScriptClass scripts rec hnodup hrec]
    rfl
  · intro name hname
    unfold buildRegistry
    rw [addScripts_apply,
        lastBinding_eq_none _ _ _ _ (fun rec h => hdisj rec h name hname)]
    rfl

/-- Witness for C8 at concrete inputs. -/
theorem script_classes_independent_witness :
    buildRegistry ["trjconv"] [⟨"/usr/bin/foo.sh", "Foo", "runs foo"⟩] "Foo"
        = some (mkScriptClass ⟨"/usr/bin/foo.sh", "Foo", "runs foo"⟩) ∧
    (mkScriptClass ⟨"/usr/bin/foo.sh", "Foo", "runs foo"⟩).command_name
        = "/usr/bin/foo.sh" ∧
    buildRegistry ["trjconv"] [⟨"/usr/bin/foo.sh", "Foo", "runs foo"⟩] (clsnameOf "trjconv")
        = patchRegistry (toolRegistry ["trjconv"]) (clsnameOf "trjconv") := by
  have h := script_classes_independent ["trjconv"]
    [⟨"/usr/bin/foo.sh", "Foo", "runs foo"⟩] (by simp) (by decide)
  exact ⟨(h.1 ⟨"/usr/bin/foo.sh", "Foo", "runs foo"⟩ (by simp)).1,
         (h.1 ⟨"/usr/bin/foo.sh", "Foo", "runs foo"⟩ (by simp)).2.1,
         h.2 "trjconv" (by simp)⟩

end GromacsTools
